import Mathlib

/-!
Verification of the DLC lowering backend (`src/target/codegen_dlc.cc`,
`src/op/dlc.cc`).  The emitters build textual C code by interleaving literal
text with `PrintExpr(op->args[k], os)` calls; we embed an emission as a
`List Item`, where `Item.str s` is a literal `os << s` and `Item.expr k` is
`PrintExpr(op->args[k], os)`.  Loop semantics of the emitted loops are
embedded as explicit recursive functions over the element count.
-/

/-- Embedding of one `os <<` step of an emitter: either literal text or the
printing of the call's k-th argument expression. -/
inductive Item where
  | str : String → Item
  | expr : Nat → Item
deriving DecidableEq, Repr

/-- The sequence of argument indices printed by an emission, in order. -/
def exprTrace (items : List Item) : List Nat :=
  items.filterMap (fun it =>
    match it with
    | Item.expr k => some k
    | Item.str _ => none)

/-- Minimal embedding of a TIR operand expression: an integer immediate
(`IntImmNode`) or any other (non-literal) expression. -/
inductive Expr where
  | intImm : Int → Expr
  | var : String → Expr
deriving DecidableEq, Repr

/-- Embedding of `CodeGenTileLangDLC::EmitVectorBinaryOp` (codegen_dlc.cc
lines 380-416): the `os <<` steps in source order; `PrintIndent()` writes to
the member `stream`, not to `os`, and is not part of the `os` output. -/
def emitVectorBinaryOp (opName varName : String) : List Item :=
  [Item.str "\x7b\n",
   Item.str ("  float8_128 " ++ varName ++ "_x, " ++ varName ++ "_y, " ++ varName ++ "_o;\n"),
   Item.str ("  for (int " ++ varName ++ "_i = 0; " ++ varName ++ "_i < "),
   Item.expr 4,
   Item.str ("; " ++ varName ++ "_i += 1024) \x7b\n"),
   Item.str ("    int " ++ varName ++ "_len = min("),
   Item.expr 4,
   Item.str (" - " ++ varName ++ "_i, 1024);\n"),
   Item.str ("    int " ++ varName ++ "_mask = pre_exp2(" ++ varName ++ "_len/128);\n"),
   Item.str ("    " ++ varName ++ "_x = v_f32_ld_tnsr_st_msk(" ++ varName ++ "_i/32, "),
   Item.expr 2,
   Item.str (", 1, " ++ varName ++ "_mask);\n"),
   Item.str ("    " ++ varName ++ "_y = v_f32_ld_tnsr_st_msk(" ++ varName ++ "_i/32, "),
   Item.expr 3,
   Item.str (", 1, " ++ varName ++ "_mask);\n"),
   Item.str ("    " ++ varName ++ "_o = " ++ opName ++ "(" ++ varName ++ "_x, " ++ varName ++ "_y);\n"),
   Item.str ("    v_f32_st_tnsr_st_msk(" ++ varName ++ "_i/32, "),
   Item.expr 1,
   Item.str (", 1, " ++ varName ++ "_mask, " ++ varName ++ "_o);\n"),
   Item.str "  \x7d\n",
   Item.str "\x7d"]

/-- Embedding of `CodeGenTileLangDLC::EmitVectorScalarOp` (codegen_dlc.cc
lines 418-454). -/
def emitVectorScalarOp (opName varName : String) : List Item :=
  [Item.str "\x7b\n",
   Item.str ("  float8_128 " ++ varName ++ "_x, " ++ varName ++ "_o;\n"),
   Item.str ("  float8_128 " ++ varName ++ "_scalar = "),
   Item.expr 3,
   Item.str ";\n",
   Item.str ("  for (int " ++ varName ++ "_i = 0; " ++ varName ++ "_i < "),
   Item.expr 4,
   Item.str ("; " ++ varName ++ "_i += 1024) \x7b\n"),
   Item.str ("    int " ++ varName ++ "_len = min("),
   Item.expr 4,
   Item.str (" - " ++ varName ++ "_i, 1024);\n"),
   Item.str ("    int " ++ varName ++ "_mask = pre_exp2(" ++ varName ++ "_len/128);\n"),
   Item.str ("    " ++ varName ++ "_x = v_f32_ld_tnsr_st_msk(" ++ varName ++ "_i/32, "),
   Item.expr 2,
   Item.str (", 1, " ++ varName ++ "_mask);\n"),
   Item.str ("    " ++ varName ++ "_o = " ++ opName ++ "(" ++ varName ++ "_x, " ++ varName ++ "_scalar);\n"),
   Item.str ("    v_f32_st_tnsr_st_msk(" ++ varName ++ "_i/32, "),
   Item.expr 1,
   Item.str (", 1, " ++ varName ++ "_mask, " ++ varName ++ "_o);\n"),
   Item.str "  \x7d\n",
   Item.str "\x7d"]

/-- Embedding of `CodeGenTileLangDLC::EmitVectorUnaryOp` (codegen_dlc.cc
lines 456-485). -/
def emitVectorUnaryOp (opName varName : String) : List Item :=
  [Item.str "\x7b\n",
   Item.str ("  int " ++ varName ++ "_size128b = "),
   Item.expr 3,
   Item.str " / 32;\n",
   Item.str "#pragma clang loop unroll_count(2)\n",
   Item.str ("  for (int " ++ varName ++ "_vs = 0; " ++ varName ++ "_vs < " ++ varName ++ "_size128b; " ++ varName ++ "_vs += 32) \x7b\n"),
   Item.str ("    float8_128 " ++ varName ++ "_x = v_f32_ld_tnsr_b(" ++ varName ++ "_vs, "),
   Item.expr 2,
   Item.str ");\n",
   Item.str ("    " ++ varName ++ "_x = " ++ opName ++ "(" ++ varName ++ "_x);\n"),
   Item.str ("    v_f32_st_tnsr_b(" ++ varName ++ "_vs, "),
   Item.expr 1,
   Item.str (", " ++ varName ++ "_x);\n"),
   Item.str "  \x7d\n",
   Item.str "\x7d"]

/-- Does the pattern occur as a contiguous run of the char list?  Embeds
`std::string::find(pat) != std::string::npos` over the list of characters. -/
def charsContain (pat : List Char) : List Char → Bool
  | [] => pat.isEmpty
  | c :: rest => pat.isPrefixOf (c :: rest) || charsContain pat rest

/-- Embedding of `vid.find(pat) != std::string::npos` on strings. -/
def strFind (s pat : String) : Bool := charsContain pat.data s.data

/-- Embedding of the address-space attribute computation in
`CodeGenTileLangDLC::VisitStmt_(AllocateNode)` (codegen_dlc.cc lines
161-176): scope-based attribute first, then the sync/flag identifier
override.  The scope string already has the source's default "local" applied
when the buffer has no recorded storage scope. -/
def allocAddrSpaceAttr (vid scope : String) : String :=
  let attr :=
    if scope == "local" || scope == "vmem" then " VMEM_SPACE "
    else if scope == "semaphore" then " SEMAPHORE_SPACE "
    else ""
  if strFind vid "sync" || strFind vid "flag" then " SEMAPHORE_SPACE " else attr

/-- Modelled from the spec: `AllocateNode::ConstantAllocationSize` lives in
upstream TVM, not under src/.  Per the spec the allocation size is a
compile-time constant exactly when every extent is an integer immediate, in
which case it is their product; result `none` embeds "not a compile-time
constant". -/
def constantAllocationSize : List Expr → Option Int
  | [] => some 1
  | Expr.intImm v :: rest => (constantAllocationSize rest).map (fun p => v * p)
  | Expr.var _ :: _ => none

/-- Embedding of the declaration part of
`CodeGenTileLangDLC::VisitStmt_(AllocateNode)` (codegen_dlc.cc lines
178-185): `ICHECK_GT(constant_size, 0)` aborts (result `none`) unless the
size is a known constant strictly greater than zero; otherwise the
type, address-space attribute and `vid[size];` declaration are emitted. -/
def visitAllocate (vid scope dtypeStr : String) (extents : List Expr) : Option (List Item) :=
  match constantAllocationSize extents with
  | none => none
  | some n =>
    if 0 < n then
      some [Item.str dtypeStr, Item.str (allocAddrSpaceAttr vid scope),
            Item.str (vid ++ "[" ++ toString n ++ "];\n")]
    else none

/-- Embedding of `GetDLCAddressSpaceName` (codegen_dlc.cc lines 22-33): the
switch over the address-space code, with `std::to_string` as default. -/
def getDLCAddressSpaceName (space : Int) : String :=
  if space = 0 then "SMEM"
  else if space = 1 then "HBM"
  else if space = 2 then "VMEM"
  else if space = 3 then "CMEM"
  else if space = 4 then "IMEM"
  else if space = 5 then "SEMAPHORE"
  else toString space

/-- Embedding of the space-code argument emission inside the `dlc_dma` case
of `CodeGenTileLangDLC::VisitExpr_(CallNode)` (codegen_dlc.cc lines 247-251
and 255-260): a literal is mapped through `getDLCAddressSpaceName`, any
other expression is printed unresolved. -/
def emitDmaSpaceArg (k : Nat) (e : Expr) : Item :=
  match e with
  | Expr.intImm v => Item.str (getDLCAddressSpaceName v)
  | Expr.var _ => Item.expr k

/-- Embedding of the flag argument emission inside the `dlc_dma` case
(codegen_dlc.cc lines 268-288): a literal zero becomes the sentinel
`NULL_SEMAPHORE`; any other literal or non-literal is printed through. -/
def emitDmaFlagArg (k : Nat) (e : Expr) : Item :=
  match e with
  | Expr.intImm v => if v = 0 then Item.str "NULL_SEMAPHORE" else Item.expr k
  | Expr.var _ => Item.expr k

/-- Embedding of the `dlc_dma` emission (codegen_dlc.cc lines 239-290):
`ICHECK_EQ(op->args.size(), 9U)` (result `none` on arity mismatch), then the
`dlc_dma_new` call text with the two fixed constants 128 and 2 appended. -/
def emitDlcDma (args : List Expr) : Option (List Item) :=
  match args with
  | [_a0, a1, _a2, a3, _a4, _a5, _a6, a7, a8] =>
    some [Item.str "dlc_dma_new(",
          Item.expr 0, Item.str ", ",
          emitDmaSpaceArg 1 a1, Item.str ", ",
          Item.expr 2, Item.str ", ",
          emitDmaSpaceArg 3 a3, Item.str ", ",
          Item.expr 4, Item.str ", ",
          Item.expr 5, Item.str ", ",
          Item.expr 6, Item.str ", ",
          emitDmaFlagArg 7 a7, Item.str ", ",
          emitDmaFlagArg 8 a8,
          Item.str ", 128, 2)"]
  | _ => none

/-- The call-effect kinds relevant to the registrations in op/dlc.cc;
`kOpaque` is `CallEffectKind::kOpaque`. -/
inductive CallEffectKind where
  | pureKind
  | readState
  | updateState
  | kOpaque
deriving DecidableEq, Repr

/-- One registered operation: its registry name, `set_num_inputs` arity and
`TCallEffectKind` attribute. -/
structure OpDescriptor where
  name : String
  num_inputs : Nat
  effect : CallEffectKind
deriving DecidableEq, Repr

/-- Embedding of the `TIR_DEFINE_TL_BUILTIN` registrations of op/dlc.cc
(lines 32-123), in source order. -/
def dlcOpCatalog : List OpDescriptor :=
  [⟨"tl.dlc_add", 5, CallEffectKind.kOpaque⟩,
   ⟨"tl.dlc_add_scalar", 5, CallEffectKind.kOpaque⟩,
   ⟨"tl.dlc_sub", 5, CallEffectKind.kOpaque⟩,
   ⟨"tl.dlc_sub_scalar", 5, CallEffectKind.kOpaque⟩,
   ⟨"tl.dlc_mul", 5, CallEffectKind.kOpaque⟩,
   ⟨"tl.dlc_mul_scalar", 5, CallEffectKind.kOpaque⟩,
   ⟨"tl.dlc_div", 5, CallEffectKind.kOpaque⟩,
   ⟨"tl.dlc_div_scalar", 5, CallEffectKind.kOpaque⟩,
   ⟨"tl.dlc_abs", 4, CallEffectKind.kOpaque⟩,
   ⟨"tl.dlc_exp", 3, CallEffectKind.kOpaque⟩,
   ⟨"tl.dlc_log", 3, CallEffectKind.kOpaque⟩,
   ⟨"tl.dlc_sqrt", 3, CallEffectKind.kOpaque⟩,
   ⟨"tl.dlc_rsqrt", 3, CallEffectKind.kOpaque⟩,
   ⟨"tl.dlc_relu", 3, CallEffectKind.kOpaque⟩,
   ⟨"tl.dlc_fill", 3, CallEffectKind.kOpaque⟩,
   ⟨"tl.dlc_copy", 3, CallEffectKind.kOpaque⟩,
   ⟨"tl.dlc_dma", 9, CallEffectKind.kOpaque⟩,
   ⟨"tl.dlc_sync", 1, CallEffectKind.kOpaque⟩,
   ⟨"tl.dlc_sync_done", 1, CallEffectKind.kOpaque⟩,
   ⟨"tl.dlc_sync_gte", 2, CallEffectKind.kOpaque⟩,
   ⟨"tl.dlc_sync_clear", 1, CallEffectKind.kOpaque⟩,
   ⟨"tl.dlc_barrier", 0, CallEffectKind.kOpaque⟩]

/-- The DLC operations the codegen dispatcher can receive. -/
inductive DLCOp where
  | dlc_dma | dlc_sync | dlc_sync_done | dlc_sync_gte | dlc_sync_clear
  | dlc_barrier | dlc_copy | dlc_fill
  | dlc_add | dlc_add_scalar | dlc_mul | dlc_mul_scalar
  | dlc_sub | dlc_sub_scalar | dlc_div | dlc_div_scalar
  | dlc_abs | dlc_exp | dlc_log | dlc_sqrt | dlc_rsqrt | dlc_relu
deriving DecidableEq, Repr

/-- The lowering an operation call is routed to by
`CodeGenTileLangDLC::VisitExpr_(CallNode)`. -/
inductive LoweringKind where
  | dmaNew
  | syncNew
  | syncDoneNew
  | syncGteNew
  | syncClearNew
  | barrierCall
  | vmemCopy
  | vmemFill
  | vectorBinary : String → LoweringKind
  | vectorScalar : String → LoweringKind
  | vectorUnary : String → LoweringKind
  | fallback
deriving DecidableEq, Repr

/-- Is this routing the 32-granule unary vector loop? -/
def LoweringKind.isVectorUnary : LoweringKind → Bool
  | LoweringKind.vectorUnary _ => true
  | _ => false

/-- Embedding of the dispatch chain of
`CodeGenTileLangDLC::VisitExpr_(CallNode)` (codegen_dlc.cc lines 239-377):
operations without a matching branch fall through to
`CodeGenC::VisitExpr_`, embedded as `fallback`. -/
def dispatchDLC : DLCOp → LoweringKind
  | DLCOp.dlc_dma => LoweringKind.dmaNew
  | DLCOp.dlc_sync => LoweringKind.syncNew
  | DLCOp.dlc_sync_done => LoweringKind.syncDoneNew
  | DLCOp.dlc_sync_gte => LoweringKind.syncGteNew
  | DLCOp.dlc_sync_clear => LoweringKind.syncClearNew
  | DLCOp.dlc_barrier => LoweringKind.barrierCall
  | DLCOp.dlc_copy => LoweringKind.vmemCopy
  | DLCOp.dlc_fill => LoweringKind.vmemFill
  | DLCOp.dlc_add => LoweringKind.vectorBinary "v_f32_add_b"
  | DLCOp.dlc_add_scalar => LoweringKind.vectorScalar "v_f32_add_b"
  | DLCOp.dlc_mul => LoweringKind.vectorBinary "v_f32_mul_b"
  | DLCOp.dlc_mul_scalar => LoweringKind.vectorScalar "v_f32_mul_b"
  | DLCOp.dlc_sub => LoweringKind.vectorBinary "v_f32_sub_b"
  | DLCOp.dlc_sub_scalar => LoweringKind.vectorScalar "v_f32_sub_b"
  | DLCOp.dlc_div => LoweringKind.vectorBinary "v_f32_div_b"
  | DLCOp.dlc_div_scalar => LoweringKind.vectorScalar "v_f32_div_b"
  | DLCOp.dlc_abs => LoweringKind.vectorUnary "v_f32_abs"
  | DLCOp.dlc_exp => LoweringKind.fallback
  | DLCOp.dlc_log => LoweringKind.fallback
  | DLCOp.dlc_sqrt => LoweringKind.fallback
  | DLCOp.dlc_rsqrt => LoweringKind.fallback
  | DLCOp.dlc_relu => LoweringKind.fallback

/-- Per-iteration `len` trace of the loop emitted by the binary and
vector-scalar emitters (codegen_dlc.cc lines 389-397): index `i` from 0,
guard `i < N`, step 1024, per-iteration `len = min(N - i, 1024)`. -/
def binaryLoopIters (N i : Nat) : List Nat :=
  if h : i < N then min (N - i) 1024 :: binaryLoopIters N (i + 1024) else []
termination_by N - i
decreasing_by omega

/-- The `len` trace of the whole emitted binary-family loop. -/
def binaryLoopLens (N : Nat) : List Nat := binaryLoopIters N 0

/-- Index trace of the loop emitted by `EmitVectorUnaryOp` (codegen_dlc.cc
lines 468-482): index `vs` from 0, guard `vs < bound`, step 32. -/
def unaryLoopIters (bound vs : Nat) : List Nat :=
  if h : vs < bound then vs :: unaryLoopIters bound (vs + 32) else []
termination_by bound - vs
decreasing_by omega

/-- The index trace of the whole emitted unary-family loop. -/
def unaryLoopIdxs (bound : Nat) : List Nat := unaryLoopIters bound 0

/-- The iteration bound of the unary loop (codegen_dlc.cc lines 464-466):
the element count divided by 32. -/
def emitUnarySize128b (n : Nat) : Nat := n / 32

/-- Modelled from the spec: the temporary-name allocator (`NameSupply` /
`name_supply_->FreshName` is upstream TVM, not under src/).  Its state is
the set of names already bound in the function being lowered (seeded by
`AllocVarID` and `ReserveKeywordsAsUnique`) plus a monotonic counter. -/
structure NameSupply where
  used : List String
  counter : Nat

/-- Decimal rendering of the counter suffix. -/
def decRepr (n : Nat) : String :=
  String.mk (((Nat.digits 10 n).map Nat.digitChar).reverse)

/-- A candidate temporary name: the prefix, an underscore and the counter. -/
def freshCand (p : String) (k : Nat) : String := p ++ "_" ++ decRepr k

/-- Modelled from the spec: `FreshName` returns a monotonic-counter-suffix
name, skipping candidates that collide with an already bound identifier,
and records the returned name as bound.  The search range
`used.length + 1` always suffices (proved below); the fallback branch is
unreachable. -/
def freshName (s : NameSupply) (p : String) : String × NameSupply :=
  match (List.range (s.used.length + 1)).find?
      (fun j => decide (freshCand p (s.counter + j) ∉ s.used)) with
  | some j =>
    (freshCand p (s.counter + j),
     ⟨freshCand p (s.counter + j) :: s.used, s.counter + j + 1⟩)
  | none => (p, s)

/-- Iterating the allocator: the names returned by m successive calls, as
when lowering a function containing m independent vector operations. -/
def runFresh (p : String) : NameSupply → Nat → List String × NameSupply
  | s, 0 => ([], s)
  | s, m + 1 =>
    ((freshName s p).fst :: (runFresh p (freshName s p).snd m).fst,
     (runFresh p (freshName s p).snd m).snd)

theorem string_data_inj {a b : String} (h : a.data = b.data) : a = b := by
  cases a
  cases b
  exact congrArg String.mk h

theorem digits_map_digitChar_inj {a b : Nat}
    (h : (Nat.digits 10 a).map Nat.digitChar = (Nat.digits 10 b).map Nat.digitChar) :
    a = b := by
  have key : ∀ n : Nat,
      ((Nat.digits 10 n).map Nat.digitChar).map (fun c => c.toNat - 48) = Nat.digits 10 n := by
    intro n
    rw [List.map_map]
    have hc : ∀ d ∈ Nat.digits 10 n,
        ((fun c : Char => c.toNat - 48) ∘ Nat.digitChar) d = id d := by
      intro d hd
      have hlt : d < 10 := Nat.digits_lt_base (by norm_num) hd
      simp only [Function.comp_apply, id_eq]
      interval_cases d <;> rfl
    rw [List.map_congr_left hc, List.map_id]
  have h2 := congrArg (List.map (fun c : Char => c.toNat - 48)) h
  rw [key, key] at h2
  have h3 := congrArg (Nat.ofDigits 10) h2
  rwa [Nat.ofDigits_digits, Nat.ofDigits_digits] at h3

theorem decRepr_injective : Function.Injective decRepr := by
  intro a b h
  apply digits_map_digitChar_inj
  apply List.reverse_injective
  exact congrArg String.data h

theorem freshCand_inj (p : String) {k k' : Nat} (h : freshCand p k = freshCand p k') :
    k = k' := by
  apply decRepr_injective
  apply string_data_inj
  have hd := congrArg String.data h
  simp only [freshCand, String.data_append] at hd
  exact List.append_cancel_left hd

theorem freshName_spec (s : NameSupply) (p : String) :
    (freshName s p).fst ∉ s.used ∧
    (freshName s p).snd.used = (freshName s p).fst :: s.used := by
  rcases hf : (List.range (s.used.length + 1)).find?
      (fun j => decide (freshCand p (s.counter + j) ∉ s.used)) with _ | j
  case some =>
    have hj := List.find?_some hf
    unfold freshName
    rw [hf]
    exact ⟨of_decide_eq_true hj, rfl⟩
  case none =>
    exfalso
    have hall : ∀ j ∈ List.range (s.used.length + 1),
        freshCand p (s.counter + j) ∈ s.used := by
      intro j hjr
      have hmem := List.find?_eq_none.mp hf j hjr
      simpa using hmem
    have hinj : Function.Injective (fun j => freshCand p (s.counter + j)) := by
      intro x y hxy
      have := freshCand_inj p hxy
      omega
    have hnd : ((List.range (s.used.length + 1)).map
        (fun j => freshCand p (s.counter + j))).Nodup :=
      List.Nodup.map hinj (List.nodup_range _)
    have hsub : ((List.range (s.used.length + 1)).map
        (fun j => freshCand p (s.counter + j))) ⊆ s.used := by
      intro x hx
      rcases List.mem_map.mp hx with ⟨j, hjr, rfl⟩
      exact hall j hjr
    have hle := (List.subperm_of_subset hnd hsub).length_le
    simp at hle

theorem runFresh_spec (p : String) (m : Nat) (s : NameSupply) :
    (runFresh p s m).fst.Nodup ∧
    (∀ n ∈ (runFresh p s m).fst, n ∉ s.used) ∧
    (∀ x ∈ s.used, x ∈ (runFresh p s m).snd.used) := by
  induction m generalizing s with
  | zero => simp [runFresh]
  | succ m ih =>
    obtain ⟨hfresh, hused⟩ := freshName_spec s p
    obtain ⟨ihnd, ihnotin, ihmono⟩ := ih (freshName s p).snd
    refine ⟨?_, ?_, ?_⟩
    · refine List.nodup_cons.mpr ⟨?_, ihnd⟩
      intro hmem
      exact ihnotin _ hmem (by rw [hused]; exact List.mem_cons_self _ _)
    · intro n hn
      rcases List.mem_cons.mp hn with rfl | hn'
      · exact hfresh
      · intro hmem
        exact ihnotin n hn' (by rw [hused]; exact List.mem_cons_of_mem _ hmem)
    · intro x hx
      exact ihmono x (by rw [hused]; exact List.mem_cons_of_mem _ hx)

theorem binaryLoopIters_of_lt {N i : Nat} (h : i < N) :
    binaryLoopIters N i = min (N - i) 1024 :: binaryLoopIters N (i + 1024) := by
  conv_lhs => unfold binaryLoopIters
  simp [h]

theorem binaryLoopIters_of_ge {N i : Nat} (h : ¬ i < N) : binaryLoopIters N i = [] := by
  conv_lhs => unfold binaryLoopIters
  simp [h]

theorem binaryLoopIters_length (N i : Nat) :
    (binaryLoopIters N i).length = (N - i + 1023) / 1024 := by
  by_cases h : i < N
  · rw [binaryLoopIters_of_lt h, List.length_cons, binaryLoopIters_length N (i + 1024)]
    omega
  · rw [binaryLoopIters_of_ge h, List.length_nil]
    omega
termination_by N - i
decreasing_by omega

theorem binaryLoopIters_sum (N i : Nat) : (binaryLoopIters N i).sum = N - i := by
  by_cases h : i < N
  · rw [binaryLoopIters_of_lt h, List.sum_cons, binaryLoopIters_sum N (i + 1024)]
    rw [Nat.min_def]
    split_ifs <;> omega
  · rw [binaryLoopIters_of_ge h, List.sum_nil]
    omega
termination_by N - i
decreasing_by omega

theorem binaryLoopIters_getLast (N i : Nat) (h : i < N) :
    (binaryLoopIters N i).getLast? =
      some (if (N - i) % 1024 = 0 then 1024 else (N - i) % 1024) := by
  by_cases h2 : i + 1024 < N
  · have ih := binaryLoopIters_getLast N (i + 1024) h2
    have hne : binaryLoopIters N (i + 1024) ≠ [] := by
      rw [binaryLoopIters_of_lt h2]
      simp
    rcases List.exists_cons_of_ne_nil hne with ⟨x, xs, hx⟩
    rw [binaryLoopIters_of_lt h, hx, List.getLast?_cons_cons, ← hx, ih]
    have hmod : (N - (i + 1024)) % 1024 = (N - i) % 1024 := by omega
    rw [hmod]
  · rw [binaryLoopIters_of_lt h, binaryLoopIters_of_ge h2, List.getLast?_singleton]
    have hb : 0 < N - i ∧ N - i ≤ 1024 := by omega
    rw [Nat.min_def]
    split_ifs <;> simp <;> omega
termination_by N - i
decreasing_by omega

theorem unaryLoopIters_of_lt {b vs : Nat} (h : vs < b) :
    unaryLoopIters b vs = vs :: unaryLoopIters b (vs + 32) := by
  conv_lhs => unfold unaryLoopIters
  simp [h]

theorem unaryLoopIters_of_ge {b vs : Nat} (h : ¬ vs < b) : unaryLoopIters b vs = [] := by
  conv_lhs => unfold unaryLoopIters
  simp [h]

theorem unaryLoopIters_length (b vs : Nat) :
    (unaryLoopIters b vs).length = (b - vs + 31) / 32 := by
  by_cases h : vs < b
  · rw [unaryLoopIters_of_lt h, List.length_cons, unaryLoopIters_length b (vs + 32)]
    omega
  · rw [unaryLoopIters_of_ge h, List.length_nil]
    omega
termination_by b - vs
decreasing_by omega

/-- C1: for every binary-family or vector-scalar lowering with element count
N, the emitted loop (index from 0, guard i < N, step 1024, per-iteration
len = min(N - i, 1024), mask = pre_exp2(len/128)) executes exactly
ceil(N / 1024) iterations, the per-iteration len values sum to N, the final
len is N mod 1024 (1024 when N is a positive multiple of 1024), and N = 0
yields zero iterations (getLast? = none on an empty trace). -/
theorem dlc_binary_loop_spec (o v : String) (N : Nat) :
    (binaryLoopLens N).length = (N + 1023) / 1024 ∧
    (binaryLoopLens N).sum = N ∧
    (binaryLoopLens N).getLast? =
      (if N = 0 then none else if N % 1024 = 0 then some 1024 else some (N % 1024)) ∧
    Item.str ("    int " ++ v ++ "_mask = pre_exp2(" ++ v ++ "_len/128);\n")
      ∈ emitVectorBinaryOp o v ∧
    Item.str ("    int " ++ v ++ "_mask = pre_exp2(" ++ v ++ "_len/128);\n")
      ∈ emitVectorScalarOp o v := by
  refine ⟨?_, ?_, ?_, ?_, ?_⟩
  · have h := binaryLoopIters_length N 0
    simpa [binaryLoopLens] using h
  · have h := binaryLoopIters_sum N 0
    simpa [binaryLoopLens] using h
  · by_cases h : N = 0
    · subst h
      rw [if_pos rfl, binaryLoopLens, binaryLoopIters_of_ge (by omega)]
      rfl
    · have hl := binaryLoopIters_getLast N 0 (by omega)
      simp only [Nat.sub_zero] at hl
      rw [binaryLoopLens, hl, if_neg h]
      split_ifs <;> rfl
  · simp [emitVectorBinaryOp]
  · simp [emitVectorScalarOp]

/-- C2 counterexample: the claim says every unary-family operation (abs, exp,
log, sqrt, rsqrt, relu) lowers to the 32-granule loop shape, but the
dispatcher routes dlc_exp (and log/sqrt/rsqrt/relu) to the generic C
fall-through, not to the unary vector loop. -/
theorem dlc_unary_dispatch_counterexample :
    (dispatchDLC DLCOp.dlc_exp).isVectorUnary = false ∧
    dispatchDLC DLCOp.dlc_exp = LoweringKind.fallback := ⟨rfl, rfl⟩

/-- C2 amended: only dlc_abs is routed to the 32-granule unary loop shape
(exp, log, sqrt, rsqrt and relu fall through to the generic C visitor); for
abs the emitted loop has iteration bound N / 32 (integer division), stride
32, the unroll-count-2 pragma, operand print order size, src, dst, and no
mask text anywhere in its literal output. -/
theorem dlc_unary_family_amended (o v : String) (N : Nat) :
    dispatchDLC DLCOp.dlc_abs = LoweringKind.vectorUnary "v_f32_abs" ∧
    dispatchDLC DLCOp.dlc_exp = LoweringKind.fallback ∧
    dispatchDLC DLCOp.dlc_log = LoweringKind.fallback ∧
    dispatchDLC DLCOp.dlc_sqrt = LoweringKind.fallback ∧
    dispatchDLC DLCOp.dlc_rsqrt = LoweringKind.fallback ∧
    dispatchDLC DLCOp.dlc_relu = LoweringKind.fallback ∧
    (unaryLoopIdxs (emitUnarySize128b N)).length = (N / 32 + 31) / 32 ∧
    Item.str "#pragma clang loop unroll_count(2)\n" ∈ emitVectorUnaryOp o v ∧
    ((emitVectorUnaryOp "v_f32_abs" "_dlc_vec").all (fun it =>
      match it with
      | Item.str s => !(strFind s "msk")
      | Item.expr _ => true)) = true ∧
    exprTrace (emitVectorUnaryOp o v) = [3, 2, 1] := by
  refine ⟨rfl, rfl, rfl, rfl, rfl, rfl, ?_, ?_, ?_, rfl⟩
  · have h := unaryLoopIters_length (emitUnarySize128b N) 0
    simpa [unaryLoopIdxs, emitUnarySize128b] using h
  · simp [emitVectorUnaryOp]
  · decide

/-- C3 counterexample: the claim says each operand expression of a lowered
call is printed exactly once; in the binary-family emitter the size operand
(argument 4) is printed twice (loop guard and len computation). -/
theorem dlc_operand_print_counterexample :
    (exprTrace (emitVectorBinaryOp "v_f32_add_b" "_dlc_vec")).count 4 = 2 := by decide

/-- C3 amended: in the binary emitter the operand print trace is
size, size, src0, src1, dst (argument indices 4,4,2,3,1) and in the
vector-scalar emitter it is scalar, size, size, src, dst (3,4,4,2,1): the
pointer and scalar operands are each printed exactly once but the size
operand is printed twice, the template operand (index 0) is never printed,
and the order is not the declared left-to-right argument order. -/
theorem dlc_operand_print_amended (o v : String) :
    exprTrace (emitVectorBinaryOp o v) = [4, 4, 2, 3, 1] ∧
    exprTrace (emitVectorScalarOp o v) = [3, 4, 4, 2, 1] := ⟨rfl, rfl⟩

/-- C4 counterexample: a local buffer named "buf" (no "sync"/"flag"
substring) with declared scope "semaphore" receives the SEMAPHORE_SPACE
qualifier, while the claim's resolution order says such a declaration gets
no address-space qualifier. -/
theorem dlc_addr_space_counterexample :
    strFind "buf" "sync" = false ∧ strFind "buf" "flag" = false ∧
    allocAddrSpaceAttr "buf" "semaphore" = " SEMAPHORE_SPACE " ∧
    allocAddrSpaceAttr "buf" "semaphore" ≠ "" := by
  refine ⟨by decide, by decide, by decide, by decide⟩

/-- C4 amended: resolution order is (a) identifier contains "sync" or
"flag" → SEMAPHORE_SPACE regardless of scope; (b) else scope "local" or
"vmem" → VMEM_SPACE; (c) else scope "semaphore" → SEMAPHORE_SPACE; (d) else
no qualifier.  Resolution is total and always yields exactly one of the
three outcomes. -/
theorem dlc_addr_space_amended (vid scope : String) :
    allocAddrSpaceAttr vid scope =
      (if strFind vid "sync" || strFind vid "flag" then " SEMAPHORE_SPACE "
       else if scope == "local" || scope == "vmem" then " VMEM_SPACE "
       else if scope == "semaphore" then " SEMAPHORE_SPACE "
       else "") ∧
    (allocAddrSpaceAttr vid scope = "" ∨
     allocAddrSpaceAttr vid scope = " VMEM_SPACE " ∨
     allocAddrSpaceAttr vid scope = " SEMAPHORE_SPACE ") := by
  constructor
  · unfold allocAddrSpaceAttr
    by_cases h : (strFind vid "sync" || strFind vid "flag") = true <;> simp [h]
  · unfold allocAddrSpaceAttr
    by_cases h1 : (strFind vid "sync" || strFind vid "flag") = true <;>
      by_cases h2 : (scope == "local" || scope == "vmem") = true <;>
        by_cases h3 : (scope == "semaphore") = true <;> simp [h1, h2, h3]

/-- C5: in every DMA lowering the two flag arguments (descriptor positions
8 and 9, argument indices 7 and 8) are special-cased: a literal zero is
emitted as the sentinel NULL_SEMAPHORE, while any non-zero literal or any
non-literal expression is printed through unchanged; the full 9-argument
lowering places the flag results at the fixed slots of the dlc_dma_new
call. -/
theorem dlc_dma_flag_sentinel (v : Int) (s : String)
    (a0 a1 a2 a3 a4 a5 a6 a7 a8 : Expr) (hv : v ≠ 0) :
    emitDmaFlagArg 7 (Expr.intImm 0) = Item.str "NULL_SEMAPHORE" ∧
    emitDmaFlagArg 8 (Expr.intImm 0) = Item.str "NULL_SEMAPHORE" ∧
    emitDmaFlagArg 7 (Expr.intImm v) = Item.expr 7 ∧
    emitDmaFlagArg 8 (Expr.intImm v) = Item.expr 8 ∧
    emitDmaFlagArg 7 (Expr.var s) = Item.expr 7 ∧
    emitDmaFlagArg 8 (Expr.var s) = Item.expr 8 ∧
    (∃ items, emitDlcDma [a0, a1, a2, a3, a4, a5, a6, a7, a8] = some items ∧
      items[15]? = some (emitDmaFlagArg 7 a7) ∧
      items[17]? = some (emitDmaFlagArg 8 a8)) := by
  refine ⟨rfl, rfl, ?_, ?_, rfl, rfl, ?_⟩
  · simp [emitDmaFlagArg, hv]
  · simp [emitDmaFlagArg, hv]
  · exact ⟨_, rfl, rfl, rfl⟩

/-- C5 witness: the sentinel and pass-through behavior at the spec's test
inputs (literal 0, literal 5, symbolic variable in the flag slots). -/
theorem dlc_dma_flag_sentinel_witness :
    emitDmaFlagArg 7 (Expr.intImm 0) = Item.str "NULL_SEMAPHORE" ∧
    emitDmaFlagArg 8 (Expr.intImm 0) = Item.str "NULL_SEMAPHORE" ∧
    emitDmaFlagArg 7 (Expr.intImm 5) = Item.expr 7 ∧
    emitDmaFlagArg 8 (Expr.intImm 5) = Item.expr 8 ∧
    emitDmaFlagArg 7 (Expr.var "sflag") = Item.expr 7 ∧
    emitDmaFlagArg 8 (Expr.var "dflag") = Item.expr 8 ∧
    (∃ items,
      emitDlcDma [Expr.var "sp", Expr.intImm 1, Expr.var "dp", Expr.intImm 2,
        Expr.intImm 256, Expr.intImm 1, Expr.intImm 1, Expr.intImm 0,
        Expr.intImm 0] = some items ∧
      items[15]? = some (emitDmaFlagArg 7 (Expr.intImm 0)) ∧
      items[17]? = some (emitDmaFlagArg 8 (Expr.intImm 0))) :=
  dlc_dma_flag_sentinel 5 "sflag" (Expr.var "sp") (Expr.intImm 1) (Expr.var "dp")
    (Expr.intImm 2) (Expr.intImm 256) (Expr.intImm 1) (Expr.intImm 1)
    (Expr.intImm 0) (Expr.intImm 0) (by decide) |>.imp id
    (fun h => h.imp id (fun h => h.imp id (fun h => h.imp id (fun h => h.imp
      (fun _ => rfl) (fun h => h.imp (fun _ => rfl) id)))))

/-- C6: a literal DMA space code in [0,5] resolves to the corresponding
symbolic name, any other literal is emitted as its decimal numeral, a
non-literal space expression is passed through unresolved, resolution is a
total function, and the 9-argument descriptor expands to an 11-argument
dlc_dma_new call ending in the two fixed constants 128 and 2. -/
theorem dlc_dma_space_resolution (v : Int) (s : String)
    (a0 a1 a2 a3 a4 a5 a6 a7 a8 : Expr) (hv : v < 0 ∨ 5 < v) :
    getDLCAddressSpaceName 0 = "SMEM" ∧
    getDLCAddressSpaceName 1 = "HBM" ∧
    getDLCAddressSpaceName 2 = "VMEM" ∧
    getDLCAddressSpaceName 3 = "CMEM" ∧
    getDLCAddressSpaceName 4 = "IMEM" ∧
    getDLCAddressSpaceName 5 = "SEMAPHORE" ∧
    getDLCAddressSpaceName v = toString v ∧
    emitDmaSpaceArg 1 (Expr.var s) = Item.expr 1 ∧
    emitDmaSpaceArg 3 (Expr.intImm v) = Item.str (toString v) ∧
    (∃ items, emitDlcDma [a0, a1, a2, a3, a4, a5, a6, a7, a8] = some items ∧
      items.head? = some (Item.str "dlc_dma_new(") ∧
      items.getLast? = some (Item.str ", 128, 2)") ∧
      items[3]? = some (emitDmaSpaceArg 1 a1) ∧
      items[7]? = some (emitDmaSpaceArg 3 a3)) := by
  have hname : getDLCAddressSpaceName v = toString v := by
    unfold getDLCAddressSpaceName
    rw [if_neg (by omega), if_neg (by omega), if_neg (by omega),
      if_neg (by omega), if_neg (by omega), if_neg (by omega)]
  refine ⟨rfl, rfl, rfl, rfl, rfl, rfl, hname, rfl, ?_, ?_⟩
  · simp [emitDmaSpaceArg, hname]
  · exact ⟨_, rfl, rfl, rfl, rfl, rfl⟩

/-- C6 witness: the space-code resolution exercised at code 7 (outside
[0,5]) and a concrete 9-argument descriptor. -/
theorem dlc_dma_space_resolution_witness :
    getDLCAddressSpaceName 7 = toString (7 : Int) ∧
    emitDmaSpaceArg 1 (Expr.var "sp") = Item.expr 1 ∧
    emitDmaSpaceArg 3 (Expr.intImm 7) = Item.str (toString (7 : Int)) ∧
    (∃ items,
      emitDlcDma [Expr.var "p", Expr.intImm 1, Expr.var "q", Expr.intImm 7,
        Expr.intImm 32, Expr.intImm 1, Expr.intImm 1, Expr.intImm 0,
        Expr.intImm 0] = some items ∧
      items.head? = some (Item.str "dlc_dma_new(") ∧
      items.getLast? = some (Item.str ", 128, 2)") ∧
      items[3]? = some (emitDmaSpaceArg 1 (Expr.intImm 1)) ∧
      items[7]? = some (emitDmaSpaceArg 3 (Expr.intImm 7))) := by
  have h := dlc_dma_space_resolution 7 "sp" (Expr.var "p") (Expr.intImm 1)
    (Expr.var "q") (Expr.intImm 7) (Expr.intImm 32) (Expr.intImm 1)
    (Expr.intImm 1) (Expr.intImm 0) (Expr.intImm 0) (Or.inr (by decide))
  exact ⟨h.2.2.2.2.2.2.1, h.2.2.2.2.2.2.2.1, h.2.2.2.2.2.2.2.2.1,
    h.2.2.2.2.2.2.2.2.2⟩

/-- C7 counterexample: the claim says the operation catalog has exactly 24
entries; the registrations in op/dlc.cc define 22. -/
theorem dlc_catalog_counterexample :
    dlcOpCatalog.length = 22 ∧ dlcOpCatalog.length ≠ 24 := ⟨rfl, by decide⟩

/-- C7 amended: the operation catalog contains exactly 22 entries, and every
entry is registered with the Opaque call-effect kind. -/
theorem dlc_catalog_amended :
    dlcOpCatalog.length = 22 ∧
    ∀ d ∈ dlcOpCatalog, d.effect = CallEffectKind.kOpaque := by
  refine ⟨rfl, ?_⟩
  decide

/-- C8: within one lowering pass, iterating the temporary-name allocator
(seeded with the identifiers already bound in the function being lowered)
never returns the same string twice and never returns a name equal to an
already-bound identifier; in particular the m loop-construct head names
generated for m vector operations are pairwise distinct. -/
theorem dlc_fresh_names_distinct (used0 : List String) (c0 : Nat) (p : String) (m : Nat) :
    (runFresh p ⟨used0, c0⟩ m).fst.Nodup ∧
    ∀ n ∈ (runFresh p ⟨used0, c0⟩ m).fst, n ∉ used0 := by
  have h := runFresh_spec p m ⟨used0, c0⟩
  exact ⟨h.1, h.2.1⟩

/-- C9: lowering a fixed-size local buffer allocation succeeds (emits the
qualified array declaration) exactly when the allocation size is a
compile-time constant strictly greater than zero; zero, negative, or
non-constant sizes abort the invariant check. -/
theorem dlc_allocate_const_size (vid scope dt : String) (extents : List Expr) :
    (visitAllocate vid scope dt extents).isSome ↔
      ∃ n : Int, constantAllocationSize extents = some n ∧ 0 < n := by
  unfold visitAllocate
  cases h : constantAllocationSize extents with
  | none => simp
  | some n =>
    by_cases hp : 0 < n
    · simp [hp]
    · simp [hp]

/-- C10: in the vector-scalar lowering the scalar operand (argument 3) is
printed exactly once, as the initializer of the broadcast temporary emitted
before the loop header (list position 3, loop header at position 5); the
loop body reuses the _scalar temporary in the compute instruction and never
re-prints argument 3. -/
theorem dlc_scalar_broadcast_once (o v : String) :
    exprTrace (emitVectorScalarOp o v) = [3, 4, 4, 2, 1] ∧
    (emitVectorScalarOp o v)[3]? = some (Item.expr 3) ∧
    (emitVectorScalarOp o v)[5]? =
      some (Item.str ("  for (int " ++ v ++ "_i = 0; " ++ v ++ "_i < ")) ∧
    exprTrace ((emitVectorScalarOp o v).drop 5) = [4, 4, 2, 1] ∧
    (emitVectorScalarOp o v)[15]? =
      some (Item.str ("    " ++ v ++ "_o = " ++ o ++ "(" ++ v ++ "_x, " ++ v ++ "_scalar);\n")) :=
  ⟨rfl, rfl, rfl, rfl, rfl⟩
